import Mathlib

/-!
Verification development for the django-unicorn message-processing engine
(src/django_unicorn/views.py).

The Python source is shallowly embedded: JSON values and Python dicts become
the inductive `JVal`, component instances become `Component` (an attribute
association list plus a method table), fallible code returns values paired
with `Option PyErr`, and machine words in the hash functions are `Nat` with
explicit reduction modulo 2^32.  The checksum pipeline
(HMAC-SHA256 → hex digest → shortuuid/base57 token) is implemented
concretely so that tokens can be computed inside the logic.

External collaborators absent from the source tree (the `components` module
with `UnicornView.create`, `_attributes` and `render`, and the libraries
`orjson` and `shortuuid`) are modelled where noted, faithful to their
documented behavior and to the spec's description of the interfaces.
-/

/-! ## Bit-level helpers (machine words as Nat, explicit mod 2^32) -/

/-- Word truncation to 32 bits. -/
def w32 (n : Nat) : Nat := n % 4294967296

/-- Bitwise xor on 32-bit words (xor of values below 2^32 stays below 2^32). -/
def bxor (a b : Nat) : Nat := a ^^^ b

/-- Bitwise and on 32-bit words. -/
def band (a b : Nat) : Nat := a &&& b

/-- Bitwise complement of a 32-bit word. -/
def bnot32 (a : Nat) : Nat := 4294967295 - a

/-- Right rotation of a 32-bit word. -/
def rotr (n x : Nat) : Nat := x / 2 ^ n + x % 2 ^ n * 2 ^ (32 - n)

/-- Left rotation of a 32-bit word. -/
def rotl (n x : Nat) : Nat := rotr (32 - n) x

/-- Logical right shift. -/
def shr (n x : Nat) : Nat := x / 2 ^ n

/-- Big-endian byte encoding of a number into exactly `k` bytes. -/
def natToBytesBE : Nat → Nat → List Nat
  | 0, _ => []
  | k+1, n => natToBytesBE k (n / 256) ++ [n % 256]

/-- Groups a byte list into big-endian 32-bit words (discarding a ragged tail;
the inputs are always padded to a multiple of 4). -/
def bytesToWordsBE : List Nat → List Nat
  | b0 :: b1 :: b2 :: b3 :: rest => (((b0 * 256 + b1) * 256 + b2) * 256 + b3) :: bytesToWordsBE rest
  | _ => []

/-- Fuel-indexed grouping into 16-word blocks. -/
def chunksAux : Nat → List Nat → List (List Nat)
  | 0, _ => []
  | _, [] => []
  | f+1, ws => ws.take 16 :: chunksAux f (ws.drop 16)

/-- Merkle-Damgard padding shared by SHA-256 and SHA-1: append 0x80, zero-pad
to 56 mod 64 bytes, then the bit length as 8 big-endian bytes. -/
def shaPad (msg : List Nat) : List Nat :=
  let L := msg.length
  msg ++ [128] ++ List.replicate ((119 - L % 64) % 64) 0 ++ natToBytesBE 8 (L * 8)

/-! ## SHA-256 -/

def sha256s0 (x : Nat) : Nat := bxor (bxor (rotr 7 x) (rotr 18 x)) (shr 3 x)
def sha256s1 (x : Nat) : Nat := bxor (bxor (rotr 17 x) (rotr 19 x)) (shr 10 x)
def sha256S0 (x : Nat) : Nat := bxor (bxor (rotr 2 x) (rotr 13 x)) (rotr 22 x)
def sha256S1 (x : Nat) : Nat := bxor (bxor (rotr 6 x) (rotr 11 x)) (rotr 25 x)

/-- Message-schedule extension; the word list is kept most-recent-first. -/
def sha256ExtendAux : Nat → List Nat → List Nat
  | 0, ws => ws
  | f+1, ws =>
    let n := w32 (sha256s1 (ws.getD 1 0) + ws.getD 6 0 + sha256s0 (ws.getD 14 0) + ws.getD 15 0)
    sha256ExtendAux f (n :: ws)

def sha256Schedule (blk : List Nat) : List Nat :=
  (sha256ExtendAux 48 blk.reverse).reverse

def sha256K : List Nat :=
  [1116352408, 1899447441, 3049323471, 3921009573, 961987163, 1508970993,
   2453635748, 2870763221, 3624381080, 310598401, 607225278, 1426881987,
   1925078388, 2162078206, 2614888103, 3248222580, 3835390401, 4022224774,
   264347078, 604807628, 770255983, 1249150122, 1555081692, 1996064986,
   2554220882, 2821834349, 2952996808, 3210313671, 3336571891, 3584528711,
   113926993, 338241895, 666307205, 773529912, 1294757372, 1396182291,
   1695183700, 1986661051, 2177026350, 2456956037, 2730485921, 2820302411,
   3259730800, 3345764771, 3516065817, 3600352804, 4094571909, 275423344,
   430227734, 506948616, 659060556, 883997877, 958139571, 1322822218,
   1537002063, 1747873779, 1955562222, 2024104815, 2227730452, 2361852424,
   2428436474, 2756734187, 3204031479, 3329325298]

def sha256H0 : List Nat :=
  [1779033703, 3144134277, 1013904242, 2773480762, 1359893119, 2600822924, 528734635, 1541459225]

def sha256Round (st : List Nat) (kw : Nat × Nat) : List Nat :=
  match st with
  | [a, b, c, d, e, f, g, h] =>
    let ch := bxor (band e f) (band (bnot32 e) g)
    let maj := bxor (bxor (band a b) (band a c)) (band b c)
    let t1 := w32 (h + sha256S1 e + ch + kw.1 + kw.2)
    let t2 := w32 (sha256S0 a + maj)
    [w32 (t1 + t2), a, b, c, w32 (d + t1), e, f, g]
  | other => other

def sha256Block (h : List Nat) (blk : List Nat) : List Nat :=
  let ws := sha256Schedule blk
  let st := (sha256K.zip ws).foldl sha256Round h
  (h.zip st).map (fun p => w32 (p.1 + p.2))

/-- SHA-256 of a byte list, as 32 bytes. -/
def sha256 (msg : List Nat) : List Nat :=
  let blocks := chunksAux (msg.length / 64 + 2) (bytesToWordsBE (shaPad msg))
  let h := blocks.foldl sha256Block sha256H0
  h.foldr (fun w acc => natToBytesBE 4 w ++ acc) []

def hexChar (n : Nat) : Char := if n < 10 then Char.ofNat (48 + n) else Char.ofNat (87 + n)

/-- Lowercase hexadecimal rendering of a byte list (Python `hexdigest`). -/
def hexDigest (bs : List Nat) : String :=
  String.mk (bs.foldr (fun b acc => hexChar (b / 16) :: hexChar (b % 16) :: acc) [])

/-- HMAC-SHA256 (RFC 2104) over byte lists, mirroring Python
`hmac.new(key, msg, digestmod="sha256")`. -/
def hmacSha256 (key msg : List Nat) : List Nat :=
  let k0 := if key.length > 64 then sha256 key else key
  let k := k0 ++ List.replicate (64 - k0.length) 0
  let ipad := k.map (fun b => b ^^^ 54)
  let opad := k.map (fun b => b ^^^ 92)
  sha256 (opad ++ sha256 (ipad ++ msg))

/-- UTF-8 encoding of one character. -/
def utf8EncodeCharM (c : Char) : List Nat :=
  let n := c.toNat
  if n < 128 then [n]
  else if n < 2048 then [192 + n / 64, 128 + n % 64]
  else if n < 65536 then [224 + n / 4096, 128 + n / 64 % 64, 128 + n % 64]
  else [240 + n / 262144, 128 + n / 4096 % 64, 128 + n / 64 % 64, 128 + n % 64]

/-- UTF-8 encoding of a string (Python `str.encode`). -/
def utf8Bytes (s : String) : List Nat := s.data.foldr (fun c acc => utf8EncodeCharM c ++ acc) []

/-! ## SHA-1 (used by uuid5 inside shortuuid) -/

def sha1H0 : List Nat := [1732584193, 4023233417, 2562383102, 271733878, 3285377520]

def sha1ExtendAux : Nat → List Nat → List Nat
  | 0, ws => ws
  | f+1, ws =>
    let n := rotl 1 (bxor (bxor (ws.getD 2 0) (ws.getD 7 0)) (bxor (ws.getD 13 0) (ws.getD 15 0)))
    sha1ExtendAux f (n :: ws)

def sha1Schedule (blk : List Nat) : List Nat :=
  (sha1ExtendAux 64 blk.reverse).reverse

def sha1F (i b c d : Nat) : Nat :=
  if i < 20 then bxor (band b c) (band (bnot32 b) d)
  else if i < 40 then bxor (bxor b c) d
  else if i < 60 then bxor (bxor (band b c) (band b d)) (band c d)
  else bxor (bxor b c) d

def sha1KOf (i : Nat) : Nat :=
  if i < 20 then 1518500249
  else if i < 40 then 1859775393
  else if i < 60 then 2400959708
  else 3395469782

def sha1Round (st : List Nat) (iw : Nat × Nat) : List Nat :=
  match st with
  | [a, b, c, d, e] =>
    let t := w32 (rotl 5 a + sha1F iw.1 b c d + e + sha1KOf iw.1 + iw.2)
    [t, a, rotl 30 b, c, d]
  | other => other

def sha1Block (h : List Nat) (blk : List Nat) : List Nat :=
  let ws := sha1Schedule blk
  let st := ((List.range 80).zip ws).foldl sha1Round h
  (h.zip st).map (fun p => w32 (p.1 + p.2))

/-- SHA-1 of a byte list, as 20 bytes. -/
def sha1 (msg : List Nat) : List Nat :=
  let blocks := chunksAux (msg.length / 64 + 2) (bytesToWordsBE (shaPad msg))
  let h := blocks.foldl sha1Block sha1H0
  h.foldr (fun w acc => natToBytesBE 4 w ++ acc) []

/-! ## shortuuid token (uuid5 + base57)

Modelled from the spec: the source calls `shortuuid.uuid(hex_digest)[:8]`, but
the `shortuuid` library is an external collaborator whose code is not in the
source tree.  The spec pins it as "a deterministic base57/UUID-style
short-hash encoding of the hex digest" producing an 8-character token; the
model below follows the shortuuid library's documented algorithm: a name
argument is hashed with `uuid.uuid5` (RFC 4122 SHA-1 name-based UUID, DNS
namespace unless the name looks like a URL), and the resulting 128-bit
integer is written in base 57 over the alphabet of digits and letters
without lookalikes, left-padded with the zero digit to 22 characters. -/

def namespaceDNS : List Nat :=
  [107, 167, 184, 16, 157, 173, 17, 209, 128, 180, 0, 192, 79, 212, 48, 200]

def namespaceURL : List Nat :=
  [107, 167, 184, 17, 157, 173, 17, 209, 128, 180, 0, 192, 79, 212, 48, 200]

/-- RFC 4122 version/variant bit fixing on the first 16 digest bytes. -/
def uuid5Adjust : List Nat → List Nat
  | b0 :: b1 :: b2 :: b3 :: b4 :: b5 :: b6 :: b7 :: b8 :: rest =>
    b0 :: b1 :: b2 :: b3 :: b4 :: b5 :: (b6 % 16 + 80) :: b7 :: (b8 % 64 + 128) :: rest
  | l => l

def bytesToNatBE (bs : List Nat) : Nat := bs.foldl (fun a b => a * 256 + b) 0

/-- The 128-bit integer of `uuid.uuid5(ns, name)`. -/
def uuid5Int (ns : List Nat) (name : String) : Nat :=
  bytesToNatBE (uuid5Adjust ((sha1 (ns ++ utf8Bytes name)).take 16))

def alphabet57 : List Char := "23456789ABCDEFGHJKLMNPQRSTUVWXYZabcdefghijkmnopqrstuvwxyz".data

/-- Little-endian base-57 digits of a number (fuel-indexed; 25 digits cover
any 128-bit value). -/
def base57DigitsAux : Nat → Nat → List Char
  | 0, _ => []
  | f+1, n => if n = 0 then [] else alphabet57.getD (n % 57) '2' :: base57DigitsAux f (n / 57)

/-- shortuuid's `int_to_string` with padding to 22 characters. -/
def shortuuidEncode (n : Nat) : String :=
  let ds := base57DigitsAux 25 n
  String.mk (ds ++ List.replicate (22 - ds.length) '2').reverse

def asciiLower (c : Char) : Char :=
  if 65 ≤ c.toNat && c.toNat ≤ 90 then Char.ofNat (c.toNat + 32) else c

def looksLikeURL (name : String) : Bool :=
  let low := name.data.map asciiLower
  List.isPrefixOf "http://".data low || List.isPrefixOf "https://".data low

/-- shortuuid's `uuid(name)`: uuid5 in the URL namespace for URL-looking
names, otherwise the DNS namespace, then base57-encoded. -/
def shortuuidUuid (name : String) : String :=
  if looksLikeURL name then shortuuidEncode (uuid5Int namespaceURL name)
  else shortuuidEncode (uuid5Int namespaceDNS name)

/-! ## JSON / Python value model -/

/-- Values flowing through the engine: the JSON constructors mirror what
`orjson.loads` can produce (numbers restricted to integers, the only kind the
claims exercise), `jDict` doubles as the Python dict, and `jField` stands for
`UnicornField`/`Model` instances: nested objects accessed by attribute name
rather than by key.  Python object identity is modelled by paths from the
root (updates are written back along the access path). -/
inductive JVal where
  | jNull : JVal
  | jBool : Bool → JVal
  | jInt : Int → JVal
  | jStr : String → JVal
  | jArr : List JVal → JVal
  | jDict : List (String × JVal) → JVal
  | jField : List (String × JVal) → JVal

/-- Association-list lookup (Python dict keys are unique, so first match). -/
def alist_lookup {α : Type} : List (String × α) → String → Option α
  | [], _ => none
  | (k, v) :: rest, key => if k = key then some v else alist_lookup rest key

/-- Association-list update: replace in place (dicts preserve insertion order
on overwrite) or append (new keys go last, as in Python dicts). -/
def alist_set {α : Type} : List (String × α) → String → α → List (String × α)
  | [], key, v => [(key, v)]
  | (k, w) :: rest, key, v =>
    if k = key then (k, v) :: rest else (k, w) :: alist_set rest key v

/-- Python truthiness of a value. -/
def pyTruthy : JVal → Bool
  | .jNull => false
  | .jBool b => b
  | .jInt n => n != 0
  | .jStr s => s != ""
  | .jArr xs => !xs.isEmpty
  | .jDict kvs => !kvs.isEmpty
  | .jField _ => true

/-- Python `o.get(k)` combined with an `is not None` test: a missing key and
an explicit JSON null are indistinguishable (both give Python `None`). -/
def pyGet (o : List (String × JVal)) (k : String) : Option JVal :=
  match alist_lookup o k with
  | some .jNull => none
  | some v => some v
  | none => none

/-- Python `str()` of scalar values, used in error-message interpolation.
Container reprs are not modelled; no claim exercises them. -/
def pyStr : JVal → String
  | .jNull => "None"
  | .jBool true => "True"
  | .jBool false => "False"
  | .jInt n => toString n
  | .jStr s => s
  | .jArr _ => "<list>"
  | .jDict _ => "<dict>"
  | .jField _ => "<object>"

def dquoteChar : Char := Char.ofNat 34
def bslashChar : Char := Char.ofNat 92
def squoteChar : Char := Char.ofNat 39

/-- JSON string escaping for the characters the development exercises
(quote and backslash; control characters do not occur in any input here). -/
def jsonEscapeChar (c : Char) : List Char :=
  if c = dquoteChar then [bslashChar, dquoteChar]
  else if c = bslashChar then [bslashChar, bslashChar]
  else [c]

def jsonQuote (s : String) : String :=
  String.mk (dquoteChar :: s.data.foldr (fun c acc => jsonEscapeChar c ++ acc) [dquoteChar])

/-! Serialization modelling `orjson.dumps`: compact separators, and — the
load-bearing fact — dict keys emitted in insertion order, because the source
calls `orjson.dumps(self.data)` without `OPT_SORT_KEYS` (orjson's documented
default serializes dicts in insertion order).  `jField` objects are not
JSON-serializable (orjson raises TypeError); checksums are only ever computed
over parsed request data, which never contains them, and the placeholder
keeps the function total. -/

mutual

def orjsonDumps : JVal → String
  | .jNull => "null"
  | .jBool true => "true"
  | .jBool false => "false"
  | .jInt n => toString n
  | .jStr s => jsonQuote s
  | .jArr xs => "[" ++ orjsonDumpsList xs ++ "]"
  | .jDict kvs => "\x7b" ++ orjsonDumpsObj kvs ++ "\x7d"
  | .jField _ => "<unserializable>"

def orjsonDumpsList : List JVal → String
  | [] => ""
  | [x] => orjsonDumps x
  | x :: y :: rest => orjsonDumps x ++ "," ++ orjsonDumpsList (y :: rest)

def orjsonDumpsObj : List (String × JVal) → String
  | [] => ""
  | [(k, v)] => jsonQuote k ++ ":" ++ orjsonDumps v
  | (k, v) :: y :: rest => jsonQuote k ++ ":" ++ orjsonDumps v ++ "," ++ orjsonDumpsObj (y :: rest)

end

/-- Key inclusion between association lists (no value comparison). -/
def keysIncluded : List (String × JVal) → List (String × JVal) → Bool
  | [], _ => true
  | (k, _) :: rest, other => (alist_lookup other k).isSome && keysIncluded rest other

/-! Structural equality of values as finite maps: mapping entries compare by
key lookup ignoring insertion order (each left entry must match on the
right, and every right key must exist on the left). -/

mutual

def structEq : JVal → JVal → Bool
  | .jNull, .jNull => true
  | .jBool a, .jBool b => a == b
  | .jInt a, .jInt b => a == b
  | .jStr a, .jStr b => a == b
  | .jArr xs, .jArr ys => structEqList xs ys
  | .jDict xs, .jDict ys => structEqObj xs ys && keysIncluded ys xs
  | .jField xs, .jField ys => structEqObj xs ys && keysIncluded ys xs
  | _, _ => false

def structEqList : List JVal → List JVal → Bool
  | [], [] => true
  | x :: xs, y :: ys => structEq x y && structEqList xs ys
  | _, _ => false

def structEqObj : List (String × JVal) → List (String × JVal) → Bool
  | [], _ => true
  | (k, v) :: rest, other =>
    (match alist_lookup other k with
     | some w => structEq v w
     | none => false) && structEqObj rest other

end

/-! ## Errors and the boundary decorator -/

/-- Python exceptions the engine can raise.  The first two are caught by the
`handle_error` decorator; the rest escape it (an HTTP 500 in production). -/
inductive PyErr where
  | unicornViewError : String → PyErr
  | assertionError : String → PyErr
  | keyError : String → PyErr
  | typeError : PyErr
  | attributeError : PyErr
  deriving DecidableEq

inductive HandlerOutcome where
  | response : JVal → HandlerOutcome
  | uncaught : PyErr → HandlerOutcome

/-- The `handle_error` decorator: `UnicornViewError` and `AssertionError`
become `{"error": str(e)}` JSON responses; anything else propagates. -/
def handle_error : Except PyErr JVal → HandlerOutcome
  | .ok j => .response j
  | .error (.unicornViewError msg) => .response (.jDict [("error", .jStr msg)])
  | .error (.assertionError msg) => .response (.jDict [("error", .jStr msg)])
  | .error e => .uncaught e

/-! ## Checksum validation (`ComponentRequest.validate_checksum`) -/

/-- The token the server derives from the state payload:
`shortuuid.uuid(hmac.new(secret, orjson.dumps(data), "sha256").hexdigest())[:8]`. -/
def generated_checksum (secret : String) (data : JVal) : String :=
  String.mk ((shortuuidUuid (hexDigest (hmacSha256 (utf8Bytes secret) (utf8Bytes (orjsonDumps data))))).data.take 8)

/-- Embeds `ComponentRequest.validate_checksum`: a falsy `checksum` field
asserts "Missing checksum"; otherwise the supplied value is compared, by
Python `==`, to the generated token (a non-string value compares unequal to
a string without error), asserting "Checksum does not match" on mismatch. -/
def validate_checksum (secret : String) (body : List (String × JVal)) (data : JVal) : Except PyErr Unit :=
  let checksum := (alist_lookup body "checksum").getD .jNull
  if pyTruthy checksum = false then .error (.assertionError "Missing checksum")
  else
    match checksum with
    | .jStr s =>
      if s = generated_checksum secret data then .ok ()
      else .error (.assertionError "Checksum does not match")
    | _ => .error (.assertionError "Checksum does not match")

/-! ## Request envelope (`ComponentRequest.__init__`) -/

structure ComponentRequest where
  data : JVal
  id : JVal
  actionQueue : JVal

/-- Embeds `ComponentRequest.__init__`.  The input is the result of
`orjson.loads(request.body)`: `none` stands for a body that is not
well-formed JSON (`JSONDecodeError`, re-raised as `UnicornViewError "Body
could not be parsed"`).  A falsy parsed body asserts "Invalid JSON body";
`data` must be present and non-null ("Missing data"; an empty mapping is
fine); `id` must be truthy ("Missing component id"); the checksum is
validated; `actionQueue` defaults to the empty list. -/
def component_request_init (secret : String) (parsedBody : Option JVal) : Except PyErr ComponentRequest :=
  match parsedBody with
  | none => .error (.unicornViewError "Body could not be parsed")
  | some body =>
    if pyTruthy body = false then .error (.assertionError "Invalid JSON body")
    else
      match body with
      | .jDict kvs =>
        match pyGet kvs "data" with
        | none => .error (.assertionError "Missing data")
        | some dataV =>
          let idV := (alist_lookup kvs "id").getD .jNull
          if pyTruthy idV = false then .error (.assertionError "Missing component id")
          else
            match validate_checksum secret kvs dataV with
            | .error e => .error e
            | .ok _ => .ok ⟨dataV, idV, (alist_lookup kvs "actionQueue").getD (.jArr [])⟩
      | _ => .error .attributeError

/-! ## Method-call parsing (`_parse_call_method_name`, `_handle_arg`) -/

def lparen : Char := '('
def rparen : Char := ')'
def commaChar : Char := ','
def dotChar : Char := '.'
def eqChar : Char := '='

/-- Python `c in s` character membership. -/
def listContainsChar (c : Char) : List Char → Bool
  | [] => false
  | x :: xs => x == c || listContainsChar c xs

/-- Key membership in an association list (Python `in` on a dict, and the
method-table half of `hasattr`). -/
def keyMem {α : Type} : List (String × α) → String → Bool
  | [], _ => false
  | (k, _) :: rest, key => k == key || keyMem rest key

/-- Python `str.split(sep)` for a one-character separator: keeps empty
pieces, and the empty string splits to one empty piece. -/
def splitOnChar (sep : Char) (cs : List Char) : List (List Char) :=
  cs.foldr
    (fun x acc =>
      match acc with
      | g :: gs => if x = sep then [] :: g :: gs else (x :: g) :: gs
      | [] => [[]])
    [[]]

def isPrefixList : List Char → List Char → Bool
  | [], _ => true
  | _ :: _, [] => false
  | p :: ps, c :: cs => p == c && isPrefixList ps cs

/-- Python `str.replace(old, new)`: leftmost non-overlapping occurrences.
Fuel-indexed for structural recursion; `s.length` fuel suffices because each
step consumes at least one character (the pattern used in the parser always
starts with a parenthesis, hence is non-empty). -/
def listReplaceAux : Nat → List Char → List Char → List Char → List Char
  | 0, s, _, _ => s
  | _+1, [], _, _ => []
  | f+1, c :: rest, pat, repl =>
    if isPrefixList pat (c :: rest) then repl ++ listReplaceAux f ((c :: rest).drop pat.length) pat repl
    else c :: listReplaceAux f rest pat repl

def listReplace (s pat repl : List Char) : List Char := listReplaceAux s.length s pat repl

/-- Embeds `_handle_arg`: a token wrapped in matching single or double quotes
is stripped to its inner text; anything else falls through to Python's
implicit `None`. -/
def handle_arg (arg : String) : Option String :=
  let cs := arg.data
  if (cs.head? == some squoteChar && cs.getLast? == some squoteChar) ||
     (cs.head? == some dquoteChar && cs.getLast? == some dquoteChar) then
    some (String.mk (cs.drop 1).dropLast)
  else none

/-- Embeds `_parse_call_method_name`: when the string contains `(` and ends
with `)`, the tail from the first `(` is `params_str`; the method name is the
string with that tail replaced away; the parenthesis-stripped inside, if
non-empty, is comma-split and each token normalized by `_handle_arg`. -/
def parse_call_method_name (s : String) : String × List (Option String) :=
  let cs := s.data
  if listContainsChar lparen cs && cs.getLast? == some rparen then
    let paramsStr := cs.dropWhile (fun c => c != lparen)
    let methodName := String.mk (listReplace cs paramsStr [])
    let inner := (paramsStr.drop 1).dropLast
    if inner.isEmpty then (methodName, [])
    else (methodName, (splitOnChar commaChar inner).map (fun t => handle_arg (String.mk t)))
  else (s, [])

/-! ## Component instances

Modelled from the spec: the `components` module (`UnicornView`,
`UnicornField`, `_attributes`, `render`, `UnicornView.create`) is an external
collaborator not present in the source tree.  Per the spec's interface
description, a component instance is a named-field-accessible object with an
attribute enumeration capability; methods are callables reachable by
`getattr` that may mutate the instance's attributes arbitrarily.  Instance
attributes shadow class methods on lookup, as in Python. -/

/-- A method takes the normalized positional arguments and transforms the
attribute mapping.  Arity errors are not modelled (no claim exercises them). -/
def MethodImpl : Type := List (Option String) → List (String × JVal) → List (String × JVal)

structure Component where
  attrs : List (String × JVal)
  methods : List (String × MethodImpl)

/-- Modelled from the spec: `ComponentInstance.attributes()` enumerates the
instance's public attributes. -/
def attributesOf (c : Component) : List (String × JVal) := c.attrs

/-- Python `hasattr` on a component: instance attributes or class methods. -/
def hasattrComp (c : Component) (k : String) : Bool :=
  (alist_lookup c.attrs k).isSome || keyMem c.methods k

/-- Python `hasattr` on a nested value: true only for field objects exposing
the name.  Builtin attributes of dicts, lists and scalars (`keys`,
`append`, ...) are not modelled; no claim uses such segment names. -/
def hasattrV : JVal → String → Bool
  | .jField kvs, k => (alist_lookup kvs k).isSome
  | _, _ => false

def isDictV : JVal → Bool
  | .jDict _ => true
  | _ => false

def dictHasKey : JVal → String → Bool
  | .jDict kvs, k => (alist_lookup kvs k).isSome
  | _, _ => false

/-- Reads the value at a descent path from the root (total; the resolver
only forms paths whose prefixes went through field/dict containers). -/
def valAt : JVal → List String → JVal
  | v, [] => v
  | .jField kvs, p :: rest => valAt ((alist_lookup kvs p).getD .jNull) rest
  | .jDict kvs, p :: rest => valAt ((alist_lookup kvs p).getD .jNull) rest
  | _, _ :: _ => .jNull

/-- Writes the value at a descent path under the root, preserving the
container kind at every level.  In Python the write is a `setattr`/`setitem`
on an aliased reference; path-indexed update is its pure counterpart. -/
def setAt : JVal → List String → JVal → JVal
  | _, [], v => v
  | .jField kvs, [p], v => .jField (alist_set kvs p v)
  | .jDict kvs, [p], v => .jDict (alist_set kvs p v)
  | .jField kvs, p :: rest, v => .jField (alist_set kvs p (setAt ((alist_lookup kvs p).getD .jNull) rest v))
  | .jDict kvs, p :: rest, v => .jDict (alist_set kvs p (setAt ((alist_lookup kvs p).getD .jNull) rest v))
  | w, _ :: _, _ => w

/-! ## Outward-state mirroring (`data_or_dict` in `_set_property_from_payload`)

`data_or_dict` starts as the request's `data` dict and descends by
`data_or_dict.get(part, {})`.  Three situations arise, captured by `DFocus`:
the focus is still an aliased sub-dict of `data` (`attached` to a path); the
focus is the fresh `{}` default — or anything reached through it — which is
not linked into `data`, so writes to it are lost (`detached`); or the focus
is a non-dict value found in `data`, on which a further `.get` raises
`AttributeError` and an item-write raises `TypeError` (`nonDict`). -/

inductive DFocus where
  | attached : List String → DFocus
  | detached : DFocus
  | nonDict : DFocus

/-- One `data_or_dict = data_or_dict.get(part, {})` step. -/
def dfDescend (data : List (String × JVal)) (f : DFocus) (part : String) : Except PyErr DFocus :=
  match f with
  | .attached p =>
    match valAt (.jDict data) p with
    | .jDict kvs =>
      match alist_lookup kvs part with
      | some (.jDict _) => .ok (.attached (p ++ [part]))
      | some _ => .ok .nonDict
      | none => .ok .detached
    | _ => .ok .nonDict
  | .detached => .ok .detached
  | .nonDict => .error .attributeError

/-- One `data_or_dict[part] = value` step. -/
def dfWrite (data : List (String × JVal)) (f : DFocus) (part : String) (v : JVal) : Except PyErr (List (String × JVal)) :=
  match f with
  | .attached p =>
    .ok (match setAt (.jDict data) (p ++ [part]) v with
         | .jDict d => d
         | _ => data)
  | .detached => .ok data
  | .nonDict => .error .typeError

/-! ## Property-path resolution (`_set_property_from_payload`) -/

/-- The segment loop of `_set_property_from_payload` below the component
root.  `cpath` is the descent path of the current container inside `root`
(the path of `component_or_field`); `df` is the outward-state focus.  Per
segment: a field match writes (final) or descends; otherwise a dict
container writes the key (final, creating it if absent) or descends through
an existing key — a missing key on a non-final segment raises `KeyError`;
otherwise the segment is silently skipped and the loop continues with the
same containers.  Errors carry the state mutated so far (the component write
on a final segment precedes the outward-state write in the source). -/
def resolveLoop (root : JVal) (data : List (String × JVal)) (cpath : List String) (df : DFocus) (v : JVal) :
    List String → JVal × List (String × JVal) × Option PyErr
  | [] => (root, data, none)
  | [part] =>
    let cur := valAt root cpath
    if hasattrV cur part || isDictV cur then
      let root' := setAt root (cpath ++ [part]) v
      match dfWrite data df part v with
      | .ok d' => (root', d', none)
      | .error e => (root', data, some e)
    else (root, data, none)
  | part :: part2 :: rest =>
    let cur := valAt root cpath
    if hasattrV cur part then
      match dfDescend data df part with
      | .ok df' => resolveLoop root data (cpath ++ [part]) df' v (part2 :: rest)
      | .error e => (root, data, some e)
    else if isDictV cur then
      if dictHasKey cur part then
        match dfDescend data df part with
        | .ok df' => resolveLoop root data (cpath ++ [part]) df' v (part2 :: rest)
        | .error e => (root, data, some e)
      else (root, data, some (.keyError part))
    else resolveLoop root data cpath df v (part2 :: rest)

/-- The component-root level of the segment loop.  At depth zero `hasattr`
also sees class methods: a final segment naming a method is shadowed by
`setattr`; a non-final segment naming a method descends into the bound
method object, on which every later segment misses (it is neither a field
object nor a dict), so the remaining loop cannot change anything; a segment
that misses entirely is skipped and the next segment is matched against the
component again. -/
def syncTop (comp : Component) (data : List (String × JVal)) (v : JVal) :
    List String → Component × List (String × JVal) × Option PyErr
  | [] => (comp, data, none)
  | [part] =>
    if hasattrComp comp part then
      ({ comp with attrs := alist_set comp.attrs part v }, alist_set data part v, none)
    else (comp, data, none)
  | part :: part2 :: rest =>
    match alist_lookup comp.attrs part with
    | some _ =>
      match dfDescend data (.attached []) part with
      | .ok df' =>
        let r := resolveLoop (.jField comp.attrs) data [part] df' v (part2 :: rest)
        (match r.1 with
         | .jField attrs' => { comp with attrs := attrs' }
         | _ => comp,
         r.2.1, r.2.2)
      | .error e => (comp, data, some e)
    | none =>
      if keyMem comp.methods part then (comp, data, none)
      else syncTop comp data v (part2 :: rest)

/-- Embeds `_set_property_from_payload`: nothing happens unless the payload
carries a non-null `name` and a non-null `value`; the dotted name is split
and the segment loop runs.  A non-string `name` would fail at `.split`. -/
def set_property_from_payload (comp : Component) (payload : List (String × JVal)) (data : List (String × JVal)) :
    Component × List (String × JVal) × Option PyErr :=
  match pyGet payload "name", pyGet payload "value" with
  | some nameV, some propValue =>
    match nameV with
    | .jStr name => syncTop comp data propValue ((splitOnChar dotChar name.data).map String.mk)
    | _ => (comp, data, some .attributeError)
  | _, _ => (comp, data, none)

/-! ## Method invocation (`_call_method_name`) -/

/-- Embeds `_call_method_name`: if the component exposes the name, call it
and then re-write every public attribute into the outward state (existing
extra keys in `data` survive; attribute keys are overwritten).  A data
attribute shadowing the name is not callable (`TypeError`); a missing name
is a silent no-op. -/
def call_method_name (comp : Component) (methodName : String) (params : List (Option String))
    (data : List (String × JVal)) : Component × List (String × JVal) × Option PyErr :=
  match alist_lookup comp.attrs methodName with
  | some _ => (comp, data, some .typeError)
  | none =>
    match alist_lookup comp.methods methodName with
    | some f =>
      let attrs' := f params comp.attrs
      ({ comp with attrs := attrs' },
       attrs'.foldl (fun d kv => alist_set d kv.1 kv.2) data, none)
    | none => (comp, data, none)

/-! ## The action dispatcher (the queue loop of `message`) -/

/-- Modelled from the spec: the external collaborators of the endpoint —
`UnicornView.create(component_id, component_name, skip_cache)` producing a
component instance (the Bool argument is `skip_cache`), the rendering
capability, and the server's `SECRET_KEY` setting. -/
structure Env where
  secret : String
  create : Bool → Component
  render : Component → String

def squoteStr : String := String.mk [squoteChar]

def unknownActionMsg (actionType : JVal) : String :=
  "Unknown action_type " ++ squoteStr ++ pyStr actionType ++ squoteStr

def missingNameMsg : String :=
  "Missing " ++ squoteStr ++ "name" ++ squoteStr ++ " key for callMethod"

/-- The `callMethod` arm of the queue loop: a falsy `name` asserts; the
exact strings `reset`/`reset()` fetch a fresh non-cached instance and
replace the outward state wholesale with its attributes; a name containing
`=` is a direct property assignment (right side through `_handle_arg`, so an
unquoted right side assigns Python `None`), applied only when the component
exposes the left side; anything else is parsed and dispatched. -/
def applyCallMethod (env : Env) (comp : Component) (data : List (String × JVal))
    (payload : List (String × JVal)) : Component × List (String × JVal) × Option PyErr :=
  let cmName := (alist_lookup payload "name").getD (.jStr "")
  if pyTruthy cmName = false then (comp, data, some (.assertionError missingNameMsg))
  else
    match cmName with
    | .jStr s =>
      if s = "reset" || s = "reset()" then
        let fresh := env.create true
        (fresh, attributesOf fresh, none)
      else if listContainsChar eqChar s.data then
        let pieces := splitOnChar eqChar s.data
        let propertyName := String.mk (pieces.getD 0 [])
        let propertyValue :=
          match handle_arg (String.mk (pieces.getD 1 [])) with
          | some str => JVal.jStr str
          | none => JVal.jNull
        if hasattrComp comp propertyName then
          ({ comp with attrs := alist_set comp.attrs propertyName propertyValue },
           alist_set data propertyName propertyValue, none)
        else (comp, data, none)
      else
        let parsed := parse_call_method_name s
        call_method_name comp parsed.1 parsed.2 data
    | _ => (comp, data, some .typeError)

/-- One iteration of the queue loop: dispatch on `action.get("type")` with
payload defaulting to `{}`.  An unrecognized type raises
`UnicornViewError(f"Unknown action_type '{action_type}'")`; a non-dict
action or payload fails at `.get` (uncaught `AttributeError`). -/
def applyAction (env : Env) (comp : Component) (data : List (String × JVal)) (action : JVal) :
    Component × List (String × JVal) × Option PyErr :=
  match action with
  | .jDict kvs =>
    let actionType := (alist_lookup kvs "type").getD .jNull
    let payload := (alist_lookup kvs "payload").getD (.jDict [])
    match actionType with
    | .jStr t =>
      if t = "syncInput" then
        match payload with
        | .jDict po => set_property_from_payload comp po data
        | _ => (comp, data, some .attributeError)
      else if t = "callMethod" then
        match payload with
        | .jDict po => applyCallMethod env comp data po
        | _ => (comp, data, some .attributeError)
      else (comp, data, some (.unicornViewError (unknownActionMsg actionType)))
    | _ => (comp, data, some (.unicornViewError (unknownActionMsg actionType)))
  | _ => (comp, data, some .attributeError)

/-- The queue loop: actions run strictly in order; the first error stops the
loop, keeping every mutation already applied (no rollback). -/
def runQueue (env : Env) (comp : Component) (data : List (String × JVal)) :
    List JVal → Component × List (String × JVal) × Option PyErr
  | [] => (comp, data, none)
  | a :: rest =>
    match applyAction env comp data a with
    | (c', d', some e) => (c', d', some e)
    | (c', d', none) => runQueue env c' d' rest

/-! ## Initial hydration (`_set_property_from_data`) -/

/-! `_set_property_from_data` walks a data entry into the component: a
`UnicornField`/`Model` attribute is filled key by key from the entry's
mapping (the Python code mutates the aliased field in place; the pure
counterpart writes the rebuilt field back), any other attribute is set
wholesale, and an attribute the component does not expose is skipped.
Iterating `value.keys()` on a non-mapping raises `AttributeError`. -/

mutual

def spfdValue : JVal → String → JVal → Except PyErr JVal
  | c, name, value =>
    if hasattrV c name then
      let fieldKvs := match c with
        | .jField kvs => (alist_lookup kvs name).getD .jNull
        | _ => .jNull
      match fieldKvs with
      | .jField _ =>
        match value with
        | .jDict vkvs =>
          match spfdFold fieldKvs vkvs with
          | .ok field' => .ok (setAt c [name] field')
          | .error e => .error e
        | _ => .error .attributeError
      | _ => .ok (setAt c [name] value)
    else .ok c

def spfdFold : JVal → List (String × JVal) → Except PyErr JVal
  | c, [] => .ok c
  | c, (k, kv) :: rest =>
    match spfdValue c k kv with
    | .ok c' => spfdFold c' rest
    | .error e => .error e

end

/-- The component-level entry of `_set_property_from_data`: class methods
count for `hasattr` but a bound method is not a `UnicornField`, so a
method-named entry is shadowed by `setattr` like any plain attribute. -/
def set_property_from_data (comp : Component) (name : String) (value : JVal) : Except PyErr Component :=
  match alist_lookup comp.attrs name with
  | some field =>
    match field with
    | .jField _ =>
      match value with
      | .jDict vkvs =>
        match spfdFold field vkvs with
        | .ok field' => .ok { comp with attrs := alist_set comp.attrs name field' }
        | .error e => .error e
      | _ => .error .attributeError
    | _ => .ok { comp with attrs := alist_set comp.attrs name value }
  | none =>
    if keyMem comp.methods name then
      .ok { comp with attrs := alist_set comp.attrs name value }
    else .ok comp

/-- The hydration loop over `component_request.data.items()`. -/
def hydrateAll (comp : Component) : List (String × JVal) → Component × Option PyErr
  | [] => (comp, none)
  | (k, v) :: rest =>
    match set_property_from_data comp k v with
    | .ok c' => hydrateAll c' rest
    | .error e => (comp, some e)

/-! ## The endpoint (`message`) -/

def truthyStrOpt : Option String → Bool
  | none => false
  | some s => s != ""

/-- The body of the `message` view before the `handle_error` boundary.  The
second result tracks the component instance the request obtained and
possibly mutated (`none` when the request failed before any instance was
requested from the collaborator) — parsing or validation failures touch no
component. -/
def messageCore (env : Env) (componentName : Option String) (parsedBody : Option JVal) :
    Except PyErr JVal × Option Component :=
  if truthyStrOpt componentName = false then
    (.error (.assertionError "Missing component name in url"), none)
  else
    match component_request_init env.secret parsedBody with
    | .error e => (.error e, none)
    | .ok req =>
      let comp0 := env.create false
      match req.data with
      | .jDict kvs =>
        match hydrateAll comp0 kvs with
        | (c1, some e) => (.error e, some c1)
        | (c1, none) =>
          match req.actionQueue with
          | .jArr actions =>
            match runQueue env c1 kvs actions with
            | (c2, _, some e) => (.error e, some c2)
            | (c2, d2, none) =>
              (.ok (.jDict [("id", req.id), ("dom", .jStr (env.render c2)), ("data", .jDict d2)]),
               some c2)
          | _ => (.error .typeError, some c1)
      | _ => (.error .attributeError, some comp0)

/-- The full endpoint: `messageCore` behind the `handle_error` decorator. -/
def message (env : Env) (componentName : Option String) (parsedBody : Option JVal) :
    HandlerOutcome × Option Component :=
  let r := messageCore env componentName parsedBody
  (handle_error r.1, r.2)

/-! ## Concrete fixtures used by witnesses and counterexamples -/

/-- An environment with a trivial component factory and renderer. -/
def env0 : Env := ⟨"sk", fun _ => ⟨[], []⟩, fun _ => ""⟩

/-- An environment whose cached instance differs from the fresh
(`skip_cache`) instance, to observe the reset path. -/
def envR : Env :=
  ⟨"sk", fun b => if b then ⟨[("count", .jInt 0)], []⟩ else ⟨[("count", .jInt 5)], []⟩, fun _ => ""⟩

/-- A `syncInput` action writing `count := 7`. -/
def syncCountAct : JVal :=
  .jDict [("type", .jStr "syncInput"), ("payload", .jDict [("name", .jStr "count"), ("value", .jInt 7)])]

/-- A `callMethod` action with the given call-expression name. -/
def callMethodAction (rn : String) : JVal :=
  .jDict [("type", .jStr "callMethod"), ("payload", .jDict [("name", .jStr rn)])]

/-- A `syncInput` action with the given dotted path and value. -/
def syncInputAction (path : String) (v : JVal) : JVal :=
  .jDict [("type", .jStr "syncInput"), ("payload", .jDict [("name", .jStr path), ("value", v)])]

/-- The call expression `setName('Bob')` (single quotes built explicitly). -/
def setNameBobExpr : String :=
  String.mk (['s', 'e', 't', 'N', 'a', 'm', 'e', '('] ++ [squoteChar] ++ ['B', 'o', 'b'] ++ [squoteChar] ++ [')'])

/-! ## Claim-side restatement of the parser contract (C5)

Stated from the claim's words, for comparison with the source parser: the
method name is the substring before the first opening parenthesis, and the
arguments are the comma-split of the parenthesized substring with each token
that is fully wrapped in matching single or double quotes replaced by its
inner text and every other token by an absent value. -/

def claimMethodName (s : String) : String :=
  String.mk (s.data.takeWhile (fun c => c != lparen))

def claimNormalizeTok (t : List Char) : Option String :=
  if (t.head? == some squoteChar && t.getLast? == some squoteChar) ||
     (t.head? == some dquoteChar && t.getLast? == some dquoteChar) then
    some (String.mk (t.drop 1).dropLast)
  else none

def claimArgs (s : String) : List (Option String) :=
  let inner := ((s.data.dropWhile (fun c => c != lparen)).drop 1).dropLast
  if inner.isEmpty then []
  else (splitOnChar commaChar inner).map claimNormalizeTok

/-! ## Helper lemmas -/

set_option maxRecDepth 1000000

theorem keyMem_false_lookup_none {α : Type} (l : List (String × α)) (k : String)
    (h : keyMem l k = false) : alist_lookup l k = none := by
  induction l with
  | nil => rfl
  | cons kv rest ih =>
    obtain ⟨k', v⟩ := kv
    simp only [keyMem, Bool.or_eq_false_iff, beq_eq_false_iff_ne, ne_eq] at h
    simp only [alist_lookup, if_neg h.1]
    exact ih h.2

theorem pyGet_eq_some (o : List (String × JVal)) (k : String) (v : JVal)
    (hl : alist_lookup o k = some v) (hv : v ≠ .jNull) : pyGet o k = some v := by
  unfold pyGet
  rw [hl]
  cases v with
  | jNull => exact absurd rfl hv
  | jBool b => rfl
  | jInt n => rfl
  | jStr s => rfl
  | jArr xs => rfl
  | jDict kvs => rfl
  | jField kvs => rfl

theorem shortuuidEncode_data_ne_nil (n : Nat) : (shortuuidEncode n).data ≠ [] := by
  unfold shortuuidEncode
  intro h
  have hlen := congrArg List.length h
  simp only [List.length_reverse, List.length_append, List.length_replicate, List.length_nil] at hlen
  omega

theorem shortuuid_take8_ne_nil (x : String) : (shortuuidUuid x).data.take 8 ≠ [] := by
  intro h
  rw [List.take_eq_nil_iff] at h
  rcases h with h8 | hnil
  · simp at h8
  · unfold shortuuidUuid at hnil
    by_cases hc : looksLikeURL x
    · rw [if_pos hc] at hnil
      exact shortuuidEncode_data_ne_nil _ hnil
    · rw [if_neg hc] at hnil
      exact shortuuidEncode_data_ne_nil _ hnil

theorem stringMk_eq_empty {l : List Char} (h : String.mk l = "") : l = [] := by
  have h2 : String.mk l = String.mk [] := h
  injection h2

theorem generated_checksum_ne_empty (secret : String) (data : JVal) :
    generated_checksum secret data ≠ "" := by
  intro h
  exact shortuuid_take8_ne_nil
    (hexDigest (hmacSha256 (utf8Bytes secret) (utf8Bytes (orjsonDumps data))))
    (stringMk_eq_empty h)

theorem runQueue_append_of_ok (env : Env) (comp : Component) (data : List (String × JVal))
    (pre rest : List JVal) (c1 : Component) (d1 : List (String × JVal))
    (h : runQueue env comp data pre = (c1, d1, none)) :
    runQueue env comp data (pre ++ rest) = runQueue env c1 d1 rest := by
  induction pre generalizing comp data with
  | nil =>
    simp only [runQueue, Prod.mk.injEq] at h
    rw [List.nil_append, h.1, h.2.1]
  | cons a pre ih =>
    rw [List.cons_append]
    simp only [runQueue] at h ⊢
    rcases hA : applyAction env comp data a with ⟨c', d', oe⟩
    rw [hA] at h
    cases oe with
    | some e => simp at h
    | none => exact ih c' d' h

theorem syncTop_all_missing (comp : Component) (data : List (String × JVal)) (v : JVal)
    (parts : List String) (h : ∀ p ∈ parts, hasattrComp comp p = false) :
    syncTop comp data v parts = (comp, data, none) := by
  induction parts with
  | nil => rfl
  | cons part rest ih =>
    have hp := h part (List.mem_cons_self part rest)
    simp only [hasattrComp, Bool.or_eq_false_iff] at hp
    have hlk : alist_lookup comp.attrs part = none := by
      cases hx : alist_lookup comp.attrs part with
      | none => rfl
      | some w => rw [hx] at hp; simp at hp
    have hm : keyMem comp.methods part = false := hp.2
    cases rest with
    | nil =>
      have hfalse : hasattrComp comp part = false := by
        simp only [hasattrComp, hlk, hm, Option.isSome_none, Bool.or_self]
      simp [syncTop, hfalse]
    | cons part2 rest2 =>
      simp only [syncTop, hlk, hm]
      simpa using ih (fun p hpmem => h p (List.mem_cons_of_mem part hpmem))

/-! ## Claim theorems -/

/-- Claim C9: for every request whose body is not parseable as well-formed
JSON, the handler returns the error payload `{error: "Body could not be
parsed"}` and no mutation occurs — the second output `none` records that no
component instance was requested from the collaborator, so none was created
or modified and no action was applied. -/
theorem unparseable_body_spec (env : Env) (componentName : Option String)
    (h : truthyStrOpt componentName = true) :
    message env componentName none =
      (.response (.jDict [("error", .jStr "Body could not be parsed")]), none) := by
  unfold message messageCore
  rw [h]
  simp [component_request_init, handle_error]

/-- Witness for C9 at a concrete component name. -/
theorem unparseable_body_spec_witness :
    message env0 (some "hello-world") none =
      (.response (.jDict [("error", .jStr "Body could not be parsed")]), none) :=
  unparseable_body_spec env0 (some "hello-world") (by decide)

/-- Claim C10: a syncInput action whose payload carries a null or absent
`value` (or a null or absent `name`) leaves the component and the outward
state snapshot completely unchanged. -/
theorem sync_null_value_noop (env : Env) (comp : Component) (data : List (String × JVal))
    (pkvs : List (String × JVal))
    (h : pyGet pkvs "name" = none ∨ pyGet pkvs "value" = none) :
    applyAction env comp data (.jDict [("type", .jStr "syncInput"), ("payload", .jDict pkvs)]) =
      (comp, data, none) := by
  have hact : applyAction env comp data
      (.jDict [("type", .jStr "syncInput"), ("payload", .jDict pkvs)]) =
      set_property_from_payload comp pkvs data := rfl
  rw [hact]
  rcases h with hn | hv
  · simp [set_property_from_payload, hn]
  · cases hn2 : pyGet pkvs "name" with
    | none => simp [set_property_from_payload, hn2]
    | some nv => simp [set_property_from_payload, hn2, hv]

/-- Witness for C10: an explicit JSON-null value. -/
theorem sync_null_value_noop_witness :
    applyAction env0 ⟨[("count", .jInt 1)], []⟩ []
      (.jDict [("type", .jStr "syncInput"),
               ("payload", .jDict [("name", .jStr "count"), ("value", .jNull)])]) =
      (⟨[("count", .jInt 1)], []⟩, [], none) :=
  sync_null_value_noop env0 ⟨[("count", .jInt 1)], []⟩ []
    [("name", .jStr "count"), ("value", .jNull)] (Or.inr rfl)

/-- Claim C4 counterexample: syncInput `author.name` against a component
whose `author` field exposes `name`, with a snapshot that lacks the
`author` key.  The component write succeeds, but the snapshot mirror is
silently dropped (the descent used a detached fresh mapping), so the
snapshot stays empty rather than ending up as `{author: {name: ...}}`. -/
theorem sync_mirror_dropped :
    applyAction env0 ⟨[("author", .jField [("name", .jStr "Neil")])], []⟩ []
      (syncInputAction "author.name" (.jStr "Neil Gaiman")) =
      (⟨[("author", .jField [("name", .jStr "Neil Gaiman")])], []⟩, [], none) ∧
    ([] : List (String × JVal)) ≠ [("author", .jDict [("name", .jStr "Neil Gaiman")])] :=
  ⟨rfl, by simp⟩

/-- Claim C4 (amended): syncInput through an existing nested field sets the
component's nested field, and the write mirrors into the outward snapshot at
the same path exactly when the snapshot already holds the intermediate key
as a mapping; a missing intermediate key sends the mirror into a detached
fresh mapping and the snapshot is unchanged (see the counterexample). -/
theorem sync_nested_mirror_attached (env : Env) (ms : List (String × MethodImpl))
    (prior : JVal) (ds : List (String × JVal)) (val : String) :
    applyAction env ⟨[("author", .jField [("name", prior)])], ms⟩ [("author", .jDict ds)]
      (syncInputAction "author.name" (.jStr val)) =
      (⟨[("author", .jField [("name", .jStr val)])], ms⟩,
       [("author", .jDict (alist_set ds "name" (.jStr val)))], none) := rfl

/-- Witness for the amended C4: with the snapshot holding `author` as an
empty mapping, the mirror write lands and the snapshot becomes
`author.name = "Neil Gaiman"`. -/
theorem sync_nested_mirror_attached_witness :
    applyAction env0 ⟨[("author", .jField [("name", .jStr "Neil")])], []⟩ [("author", .jDict [])]
      (syncInputAction "author.name" (.jStr "Neil Gaiman")) =
      (⟨[("author", .jField [("name", .jStr "Neil Gaiman")])], []⟩,
       [("author", .jDict [("name", .jStr "Neil Gaiman")])], none) :=
  sync_nested_mirror_attached env0 [] (.jStr "Neil") [] "Neil Gaiman"

/-- Claim C2 (amended): the checksum token is determined by the serialized
byte sequence of the state mapping — two mappings with identical
serialization (same keys, same values, same insertion order) always produce
the same token.  Structural equality alone does not suffice, because the
serialization preserves insertion order (see the counterexample). -/
theorem checksum_serialization_determined (secret : String) (d1 d2 : JVal)
    (h : orjsonDumps d1 = orjsonDumps d2) :
    generated_checksum secret d1 = generated_checksum secret d2 := by
  unfold generated_checksum
  rw [h]

/-- Witness for the amended C2. -/
theorem checksum_serialization_determined_witness :
    generated_checksum "sk" (.jDict [("a", .jInt 1), ("b", .jInt 2)]) =
      generated_checksum "sk" (.jDict [("a", .jInt 1), ("b", .jInt 2)]) :=
  checksum_serialization_determined "sk" _ _ rfl

/-- Claim C6: a `callMethod` action named `reset` or `reset()` obtains a
fresh component instance bypassing the cache (`skip_cache = true`) and
replaces the outward snapshot wholesale with that instance's full attribute
set; every snapshot mutation from earlier actions in the queue is discarded,
and the remaining queue continues from the fresh state. -/
theorem reset_replaces_snapshot (env : Env) (comp c1 : Component)
    (data d1 : List (String × JVal)) (pre post : List JVal) (rn : String)
    (hrn : rn = "reset" ∨ rn = "reset()")
    (hpre : runQueue env comp data pre = (c1, d1, none)) :
    applyAction env c1 d1 (callMethodAction rn) =
      (env.create true, attributesOf (env.create true), none) ∧
    runQueue env comp data (pre ++ callMethodAction rn :: post) =
      runQueue env (env.create true) (attributesOf (env.create true)) post := by
  have hstep : applyAction env c1 d1 (callMethodAction rn) =
      (env.create true, attributesOf (env.create true), none) := by
    rcases hrn with h | h <;> subst h <;> rfl
  refine ⟨hstep, ?_⟩
  rw [runQueue_append_of_ok env comp data pre (callMethodAction rn :: post) c1 d1 hpre]
  simp only [runQueue, hstep]

/-- Witness for C6: an earlier syncInput mutation is discarded by reset. -/
theorem reset_replaces_snapshot_witness :
    runQueue envR ⟨[("count", .jInt 5)], []⟩ [("count", .jInt 5)]
      ([syncCountAct] ++ callMethodAction "reset" :: []) =
      (⟨[("count", .jInt 0)], []⟩, [("count", .jInt 0)], none) := by
  have h := (reset_replaces_snapshot envR ⟨[("count", .jInt 5)], []⟩ ⟨[("count", .jInt 7)], []⟩
      [("count", .jInt 5)] [("count", .jInt 7)] [syncCountAct] [] "reset" (Or.inl rfl) rfl).2
  rw [h]
  rfl

/-- Claim C7: an action whose type is neither `syncInput` nor `callMethod`
raises the unknown-action error at that action; every action strictly before
it has taken full effect (the resulting state is exactly the state after the
prefix — no rollback) and no action after it is applied (the result does not
depend on the suffix); the error converts to an error response payload. -/
theorem unknown_action_aborts (env : Env) (comp c1 : Component)
    (data d1 : List (String × JVal)) (pre post : List JVal) (akvs : List (String × JVal))
    (hpre : runQueue env comp data pre = (c1, d1, none))
    (ht : ∀ t : String, (alist_lookup akvs "type").getD .jNull = .jStr t →
      t ≠ "syncInput" ∧ t ≠ "callMethod") :
    runQueue env comp data (pre ++ .jDict akvs :: post) =
      (c1, d1, some (.unicornViewError (unknownActionMsg ((alist_lookup akvs "type").getD .jNull)))) ∧
    handle_error (.error (.unicornViewError (unknownActionMsg ((alist_lookup akvs "type").getD .jNull)))) =
      .response (.jDict [("error", .jStr (unknownActionMsg ((alist_lookup akvs "type").getD .jNull)))]) := by
  have hbad : applyAction env c1 d1 (.jDict akvs) =
      (c1, d1, some (.unicornViewError (unknownActionMsg ((alist_lookup akvs "type").getD .jNull)))) := by
    cases hT : (alist_lookup akvs "type").getD .jNull with
    | jStr t =>
      have h2 := ht t hT
      simp [applyAction, hT, h2.1, h2.2]
    | jNull => simp [applyAction, hT]
    | jBool b => simp [applyAction, hT]
    | jInt n => simp [applyAction, hT]
    | jArr xs => simp [applyAction, hT]
    | jDict kvs2 => simp [applyAction, hT]
    | jField kvs2 => simp [applyAction, hT]
  refine ⟨?_, rfl⟩
  rw [runQueue_append_of_ok env comp data pre (.jDict akvs :: post) c1 d1 hpre]
  simp only [runQueue, hbad]

/-- Witness for C7: an action of type "bogus" between a processed prefix and
an unprocessed suffix. -/
theorem unknown_action_aborts_witness :
    runQueue env0 ⟨[("count", .jInt 1)], []⟩ [("count", .jInt 1)]
      ([] ++ JVal.jDict [("type", .jStr "bogus")] :: [syncCountAct]) =
      (⟨[("count", .jInt 1)], []⟩, [("count", .jInt 1)],
       some (.unicornViewError (unknownActionMsg (.jStr "bogus")))) := by
  have h := (unknown_action_aborts env0 ⟨[("count", .jInt 1)], []⟩ ⟨[("count", .jInt 1)], []⟩
      [("count", .jInt 1)] [("count", .jInt 1)] [] [syncCountAct] [("type", .jStr "bogus")]
      rfl ?_).1
  · exact h
  · intro t hT
    have hT2 : JVal.jStr "bogus" = JVal.jStr t := hT
    injection hT2 with h3
    subst h3
    exact ⟨by decide, by decide⟩

/-- Claim C3 counterexample: a syncInput whose dotted path contains a
missing segment is not a no-op in general: for path `bogus.name` the
missing segment `bogus` is skipped individually and the next segment is
matched against the same container, so `name` is written on the component
root and mirrored into the snapshot — both change. -/
theorem sync_missing_segment_not_noop :
    applyAction env0 ⟨[("name", .jStr "Neil")], []⟩ []
      (syncInputAction "bogus.name" (.jStr "X")) =
      (⟨[("name", .jStr "X")], []⟩, [("name", .jStr "X")], none) ∧
    ([("name", JVal.jStr "X")] : List (String × JVal)) ≠ [] :=
  ⟨rfl, by simp⟩

/-- Claim C3 (amended): a syncInput whose dotted path consists entirely of
segments the component does not expose is a silent no-op (success with
component and snapshot unchanged), and a callMethod naming a method the
component does not expose is a silent no-op; a missing segment in general is
skipped individually rather than aborting the action (see the
counterexample). -/
theorem missing_target_noop (env : Env) (comp : Component) (data : List (String × JVal)) :
    (∀ (pkvs : List (String × JVal)) (path : String),
       pyGet pkvs "name" = some (.jStr path) →
       (∀ part ∈ (splitOnChar dotChar path.data).map String.mk, hasattrComp comp part = false) →
       applyAction env comp data (.jDict [("type", .jStr "syncInput"), ("payload", .jDict pkvs)]) =
         (comp, data, none)) ∧
    (∀ (pkvs : List (String × JVal)) (m : String),
       alist_lookup pkvs "name" = some (.jStr m) →
       m ≠ "" → m ≠ "reset" → m ≠ "reset()" →
       listContainsChar eqChar m.data = false →
       hasattrComp comp (parse_call_method_name m).1 = false →
       applyAction env comp data (.jDict [("type", .jStr "callMethod"), ("payload", .jDict pkvs)]) =
         (comp, data, none)) := by
  constructor
  · intro pkvs path hname hmiss
    have hact : applyAction env comp data
        (.jDict [("type", .jStr "syncInput"), ("payload", .jDict pkvs)]) =
        set_property_from_payload comp pkvs data := rfl
    rw [hact]
    unfold set_property_from_payload
    rw [hname]
    cases hval : pyGet pkvs "value" with
    | none => rfl
    | some v => exact syncTop_all_missing comp data v _ hmiss
  · intro pkvs m hname hne hr1 hr2 heq hmeth
    have hact : applyAction env comp data
        (.jDict [("type", .jStr "callMethod"), ("payload", .jDict pkvs)]) =
        applyCallMethod env comp data pkvs := rfl
    rw [hact]
    simp only [hasattrComp, Bool.or_eq_false_iff] at hmeth
    have hlk : alist_lookup comp.attrs (parse_call_method_name m).1 = none := by
      cases hx : alist_lookup comp.attrs (parse_call_method_name m).1 with
      | none => rfl
      | some w => rw [hx] at hmeth; simp at hmeth
    have hmk : alist_lookup comp.methods (parse_call_method_name m).1 = none :=
      keyMem_false_lookup_none _ _ hmeth.2
    have hT : pyTruthy (.jStr m) = true := by simp [pyTruthy, hne]
    simp [applyCallMethod, hname, hT, hr1, hr2, heq, call_method_name, hlk, hmk]

/-- Witness for the amended C3. -/
theorem missing_target_noop_witness :
    applyAction env0 ⟨[("count", .jInt 0)], []⟩ []
      (.jDict [("type", .jStr "syncInput"),
               ("payload", .jDict [("name", .jStr "zzz.yyy"), ("value", .jStr "v")])]) =
      (⟨[("count", .jInt 0)], []⟩, [], none) ∧
    applyAction env0 ⟨[("count", .jInt 0)], []⟩ []
      (.jDict [("type", .jStr "callMethod"), ("payload", .jDict [("name", .jStr "nope()")])]) =
      (⟨[("count", .jInt 0)], []⟩, [], none) := by
  constructor
  · exact (missing_target_noop env0 ⟨[("count", .jInt 0)], []⟩ []).1
      [("name", .jStr "zzz.yyy"), ("value", .jStr "v")] "zzz.yyy" rfl (by decide)
  · exact (missing_target_noop env0 ⟨[("count", .jInt 0)], []⟩ []).2
      [("name", .jStr "nope()")] "nope()" rfl (by decide) (by decide) (by decide)
      (by decide) (by decide)

/-- Claim C1: checksum validation succeeds iff the supplied token is exactly
the string obtained by serializing the state mapping to bytes, computing
HMAC-SHA256 keyed by the secret, hex-digesting, and reducing via the
deterministic shortuuid/base57 encoding truncated to 8 characters; a
missing or empty checksum field raises the validation assertion
"Missing checksum", and any other mismatch raises the integrity assertion
"Checksum does not match". -/
theorem validate_checksum_spec (secret : String) (body : List (String × JVal)) (data : JVal) :
    (validate_checksum secret body data = .ok () ↔
       alist_lookup body "checksum" = some (.jStr (generated_checksum secret data))) ∧
    (pyTruthy ((alist_lookup body "checksum").getD .jNull) = false →
       validate_checksum secret body data = .error (.assertionError "Missing checksum")) ∧
    (∀ v : JVal, alist_lookup body "checksum" = some v → pyTruthy v = true →
       v ≠ .jStr (generated_checksum secret data) →
       validate_checksum secret body data = .error (.assertionError "Checksum does not match")) := by
  refine ⟨?_, ?_, ?_⟩
  · unfold validate_checksum
    cases hl : alist_lookup body "checksum" with
    | none => simp [pyTruthy]
    | some v =>
      cases v with
      | jStr s =>
        by_cases hs : s = ""
        · subst hs
          simp only [Option.getD_some, pyTruthy]
          constructor
          · intro hok; simp at hok
          · intro hr
            have h2 : JVal.jStr "" = JVal.jStr (generated_checksum secret data) :=
              Option.some.inj hr
            have h3 : "" = generated_checksum secret data := by injection h2
            exact absurd h3.symm (generated_checksum_ne_empty secret data)
        · have hT : pyTruthy (.jStr s) = true := by simp [pyTruthy, hs]
          simp only [Option.getD_some, hT]
          by_cases heq : s = generated_checksum secret data
          · subst heq; simp
          · simp [heq]
      | jNull => simp [pyTruthy]
      | jBool b =>
        cases b with
        | true => simp [pyTruthy]
        | false => simp [pyTruthy]
      | jInt n =>
        constructor
        · intro hok
          simp only [Option.getD_some] at hok
          split at hok <;> simp at hok
        · intro hr; simp at hr
      | jArr xs =>
        constructor
        · intro hok
          simp only [Option.getD_some] at hok
          split at hok <;> simp at hok
        · intro hr; simp at hr
      | jDict kvs =>
        constructor
        · intro hok
          simp only [Option.getD_some] at hok
          split at hok <;> simp at hok
        · intro hr; simp at hr
      | jField kvs =>
        constructor
        · intro hok
          simp only [Option.getD_some] at hok
          split at hok <;> simp at hok
        · intro hr; simp at hr
  · intro h
    simp [validate_checksum, h]
  · intro v hl htr hne
    unfold validate_checksum
    rw [hl]
    simp only [Option.getD_some, htr]
    cases v with
    | jStr s =>
      have hsne : s ≠ generated_checksum secret data := fun hcontra => hne (by rw [hcontra])
      simp [hsne]
    | jNull => rfl
    | jBool b => rfl
    | jInt n => rfl
    | jArr xs => rfl
    | jDict kvs => rfl
    | jField kvs => rfl

/-- Witness for C1: a null checksum field is falsy and asserts
"Missing checksum". -/
theorem validate_checksum_spec_witness :
    validate_checksum "sk" [("checksum", .jNull)] (.jDict []) =
      .error (.assertionError "Missing checksum") :=
  (validate_checksum_spec "sk" [("checksum", .jNull)] (.jDict [])).2.1 (by decide)

/-- Claim C8: envelope construction fails with validation assertions for a
falsy (empty/absent) parsed body, a missing or null `data` field, or a
missing/falsy `id`; an empty mapping for `data` is accepted — with a valid
checksum, construction succeeds — and a missing `actionQueue` defaults to
the empty sequence. -/
theorem component_request_init_spec (secret : String) :
    (∀ b : JVal, pyTruthy b = false →
       component_request_init secret (some b) = .error (.assertionError "Invalid JSON body")) ∧
    (∀ kvs : List (String × JVal), pyTruthy (.jDict kvs) = true → pyGet kvs "data" = none →
       component_request_init secret (some (.jDict kvs)) = .error (.assertionError "Missing data")) ∧
    (∀ (kvs : List (String × JVal)) (d : JVal), pyTruthy (.jDict kvs) = true →
       pyGet kvs "data" = some d →
       pyTruthy ((alist_lookup kvs "id").getD .jNull) = false →
       component_request_init secret (some (.jDict kvs)) =
         .error (.assertionError "Missing component id")) ∧
    (∀ i : String, i ≠ "" →
       component_request_init secret (some (.jDict
         [("data", .jDict []), ("id", .jStr i),
          ("checksum", .jStr (generated_checksum secret (.jDict [])))])) =
       .ok ⟨.jDict [], .jStr i, .jArr []⟩) := by
  refine ⟨?_, ?_, ?_, ?_⟩
  · intro b hb
    simp [component_request_init, hb]
  · intro kvs h1 h2
    simp [component_request_init, h1, h2]
  · intro kvs d h1 h2 h3
    simp [component_request_init, h1, h2, h3]
  · intro i hi
    have hid : pyTruthy (.jStr i) = true := by simp [pyTruthy, hi]
    have hcs : pyTruthy (.jStr (generated_checksum secret (.jDict []))) = true := by
      simp [pyTruthy, generated_checksum_ne_empty secret (.jDict [])]
    have hbody : pyTruthy (.jDict
        [("data", .jDict []), ("id", .jStr i),
         ("checksum", .jStr (generated_checksum secret (.jDict [])))]) = true := rfl
    simp [component_request_init, validate_checksum, pyGet, alist_lookup, hbody, hid, hcs]

/-- Witness for C8: a concrete id with an empty data mapping and a matching
checksum. -/
theorem component_request_init_spec_witness :
    component_request_init "sk" (some (.jDict
      [("data", .jDict []), ("id", .jStr "abc"),
       ("checksum", .jStr (generated_checksum "sk" (.jDict [])))])) =
      .ok ⟨.jDict [], .jStr "abc", .jArr []⟩ :=
  (component_request_init_spec "sk").2.2.2 "abc" (by decide)

/-! Lemmas relating the source parser's `replace`-based method-name
computation to the take-the-prefix description in the claim. -/

theorem handle_arg_mk (t : List Char) : handle_arg ⟨t⟩ = claimNormalizeTok t := rfl

theorem isPrefixList_self (l : List Char) : isPrefixList l l = true := by
  induction l with
  | nil => rfl
  | cons c cs ih => simp [isPrefixList, ih]

theorem listReplaceAux_nil_s (f : Nat) (pat repl : List Char) :
    listReplaceAux f [] pat repl = [] := by
  cases f with
  | zero => rfl
  | succ n => rfl

theorem listReplace_self (cs : List Char) : listReplace cs cs [] = [] := by
  cases cs with
  | nil => rfl
  | cons c rest =>
    show listReplaceAux (rest.length + 1) (c :: rest) (c :: rest) [] = []
    simp only [listReplaceAux, if_pos (isPrefixList_self (c :: rest))]
    rw [List.nil_append, List.drop_length]
    exact listReplaceAux_nil_s _ _ _

theorem dropWhile_head_eq_lparen (cs : List Char) (h : listContainsChar lparen cs = true) :
    ∃ t, cs.dropWhile (fun x => x != lparen) = lparen :: t := by
  induction cs with
  | nil => simp [listContainsChar] at h
  | cons c rest ih =>
    by_cases hc : c = lparen
    · subst hc
      refine ⟨rest, ?_⟩
      simp [List.dropWhile]
    · have hcb : (c != lparen) = true := bne_iff_ne.mpr hc
      have hrest : listContainsChar lparen rest = true := by
        simp only [listContainsChar, Bool.or_eq_true] at h
        rcases h with h1 | h2
        · exact absurd (beq_iff_eq.mp h1) hc
        · exact h2
      obtain ⟨t, ht⟩ := ih hrest
      refine ⟨t, ?_⟩
      simp only [List.dropWhile, hcb]
      exact ht

theorem listReplace_takeWhile (cs : List Char) (h : listContainsChar lparen cs = true) :
    listReplace cs (cs.dropWhile (fun x => x != lparen)) [] =
      cs.takeWhile (fun x => x != lparen) := by
  induction cs with
  | nil => simp [listContainsChar] at h
  | cons c rest ih =>
    by_cases hc : c = lparen
    · subst hc
      have h1 : (lparen != lparen) = false := by simp
      have hdw : (lparen :: rest).dropWhile (fun x => x != lparen) = lparen :: rest := by
        simp only [List.dropWhile, h1]
      have htw : (lparen :: rest).takeWhile (fun x => x != lparen) = [] := by
        simp only [List.takeWhile, h1]
      rw [hdw, htw]
      exact listReplace_self _
    · have hcb : (c != lparen) = true := bne_iff_ne.mpr hc
      have hrest : listContainsChar lparen rest = true := by
        simp only [listContainsChar, Bool.or_eq_true] at h
        rcases h with h1 | h2
        · exact absurd (beq_iff_eq.mp h1) hc
        · exact h2
      have hdw : (c :: rest).dropWhile (fun x => x != lparen) =
          rest.dropWhile (fun x => x != lparen) := by
        simp only [List.dropWhile, hcb]
      have htw : (c :: rest).takeWhile (fun x => x != lparen) =
          c :: rest.takeWhile (fun x => x != lparen) := by
        simp only [List.takeWhile, hcb]
      rw [hdw, htw]
      obtain ⟨t, ht⟩ := dropWhile_head_eq_lparen rest hrest
      show listReplaceAux (rest.length + 1) (c :: rest)
        (rest.dropWhile (fun x => x != lparen)) [] = _
      rw [ht]
      have hb : (lparen == c) = false := beq_eq_false_iff_ne.mpr (Ne.symm hc)
      have hnp : isPrefixList (lparen :: t) (c :: rest) = false := by
        simp [isPrefixList, hb]
      simp only [listReplaceAux, hnp]
      rw [← ht]
      simp only [Bool.false_eq_true, if_false]
      exact congrArg (c :: ·) (ih hrest)

/-- Claim C5: if the call expression contains `(` and ends with `)`, parsing
returns the substring before the first `(` as the method name and the
comma-split of the parenthesized substring as arguments — each token fully
wrapped in matching single or double quotes becomes the inner string and any
other token becomes an absent value; an expression with no parenthesis is a
bare method name with no arguments.  `claimMethodName`/`claimArgs` restate
the claim's description for comparison, and the three concrete examples are
checked exactly. -/
theorem parse_call_method_name_spec :
    (∀ s : String, listContainsChar lparen s.data = true → s.data.getLast? = some rparen →
       parse_call_method_name s = (claimMethodName s, claimArgs s)) ∧
    (∀ s : String, listContainsChar lparen s.data = false →
       parse_call_method_name s = (s, [])) ∧
    parse_call_method_name setNameBobExpr = ("setName", [some "Bob"]) ∧
    parse_call_method_name "increment" = ("increment", []) ∧
    parse_call_method_name "setName()" = ("setName", []) := by
  refine ⟨?_, ?_, by decide, by decide, by decide⟩
  · intro s h1 h2
    unfold parse_call_method_name
    have hcond : (listContainsChar lparen s.data && s.data.getLast? == some rparen) = true := by
      rw [h1, h2]; simp
    rw [if_pos hcond]
    simp only [claimMethodName, claimArgs, handle_arg_mk]
    rw [listReplace_takeWhile s.data h1]
    split
    · rename_i hc
      simp [hc]
    · rename_i hc
      simp [hc]
  · intro s h1
    unfold parse_call_method_name
    rw [if_neg ?_]
    · rw [h1]; simp

/-- Witness for C5's general clauses at concrete call expressions. -/
theorem parse_call_method_name_spec_witness :
    parse_call_method_name "setAge(27)" = (claimMethodName "setAge(27)", claimArgs "setAge(27)") ∧
    parse_call_method_name "reset" = ("reset", []) := by
  constructor
  · exact (parse_call_method_name_spec).1 "setAge(27)" (by decide) (by decide)
  · exact (parse_call_method_name_spec).2.1 "reset" (by decide)

set_option maxHeartbeats 4000000 in
/-- Claim C2 counterexample: two structurally identical state mappings (the
same keys mapped to the same values, differing only in insertion order)
under the same secret produce different 8-character tokens: the serializer
keeps insertion order (no canonical key ordering), so the HMAC inputs — and
hence the tokens — differ. -/
theorem checksum_order_dependent :
    structEq (.jDict [("a", .jInt 1), ("b", .jInt 2)])
      (.jDict [("b", .jInt 2), ("a", .jInt 1)]) = true ∧
    generated_checksum "django-secret" (.jDict [("a", .jInt 1), ("b", .jInt 2)]) ≠
      generated_checksum "django-secret" (.jDict [("b", .jInt 2), ("a", .jInt 1)]) :=
  ⟨by decide, by decide⟩
